import Mathlib

/-!
Shallow embedding of `src/check_squash_availability.py` (squash-availability
repository) and proofs about the claims of its specification.

Conventions of the embedding:
  * Python dicts read with `.get(key, default)` become structures whose fields
    are `Option`-typed when the default matters at the use site.
  * Machine-level JSON numbers used as prices are embedded as `Rat` (the only
    operations performed on them are order comparisons with 0, which agree
    with the exact rational value of any JSON decimal literal).
  * Python `datetime` values are embedded as `PyDateTime`: a naive value in
    seconds on the proleptic Gregorian calendar plus an optional UTC offset in
    seconds.  Comparing a naive and an aware datetime raises `TypeError` in
    Python; the embedding returns `Except` in exactly those places.
  * `sys.exit(1)` raises `SystemExit`, which `except Exception` does NOT
    catch; the embedding keeps the two failure kinds apart in `PyFail`.
  * The pagination loop is bounded by the program's own page-count ceiling
    (`page_count > 1000` breaks after the 1001st page), so it is embedded as
    structural recursion on a fuel value of 1001.
-/

/-- Failure modes of the Python program: `SystemExit` raised by `sys.exit`
(which `except Exception` does not catch) or an ordinary exception carrying a
message (ValueError, TypeError, ...). -/
inductive PyFail where
  | systemExit (code : Int)
  | exc (msg : String)
deriving DecidableEq, Repr

/-- One price record of the `offers` list; only `offers[i].get('price', 0)` is
ever read, so only the optional `price` field is embedded. -/
structure Offer where
  price : Option Rat
deriving DecidableEq, Repr

/-- One record of the `beta:sportsActivityLocation` list: an embedded resource
location with optional `name` and `identifier`. -/
structure SLocation where
  name : Option String
  identifier : Option String
deriving DecidableEq, Repr

/-- The `data` dictionary of one feed item, with exactly the keys the program
reads: `startDate`, `endDate`, `facilityUse`, `remainingUses`, `offers`,
`beta:sportsActivityLocation` (called `locations` here) and `identifier`. -/
structure SlotData where
  startDate : Option String
  endDate : Option String
  facilityUse : Option String
  remainingUses : Option Int
  offers : List Offer
  locations : List SLocation
  identifier : Option String
deriving DecidableEq, Repr

/-- One item of a feed page: `slot_item.get('data', {})`.  A missing key and
an empty (falsy) dict are both skipped by the program, so both are `none`. -/
structure SlotItem where
  data : Option SlotData
deriving DecidableEq, Repr

/-- One page of the RPDE feed: `items` (a missing key behaves exactly like an
empty list in the loop) and the optional `next` URL. -/
structure Page where
  items : List SlotItem
  next : Option String
deriving DecidableEq, Repr

/-- One period recorded in a court entry: the dict
`{'start': ..., 'end': ..., 'remaining': ...}` appended to `slots`.
The `stop` field embeds the Python key `'end'`. -/
structure CourtSlot where
  start : Option String
  stop : Option String
  remaining : Int
deriving DecidableEq, Repr

/-- One value of the `court_info` mapping:
`{'id': ..., 'available': ..., 'remaining_uses': ..., 'slots': [...]}`. -/
structure CourtData where
  id : String
  available : Bool
  remaining_uses : Int
  slots : List CourtSlot
deriving DecidableEq, Repr

/-- The `court_info` dictionary, embedded as an insertion-ordered association
list exactly like a Python dict. -/
abbrev CourtMap := List (String × CourtData)

/-- A Python `datetime`: naive value in seconds on the proleptic Gregorian
calendar, plus `utcoffset` in seconds when the value is offset-aware. -/
structure PyDateTime where
  naive : Int
  tz : Option Int
deriving DecidableEq, Repr

/- ----------------------------------------------------------------- -/
/- Calendar arithmetic (proleptic Gregorian, as Python datetime uses) -/
/- ----------------------------------------------------------------- -/

/-- Gregorian leap-year test. -/
def isLeapYear (y : Nat) : Bool :=
  y % 4 = 0 && (y % 100 != 0 || y % 400 = 0)

/-- Number of days of month `m` of year `y` (months 1..12). -/
def daysInMonth (y m : Nat) : Nat :=
  if m = 2 then (if isLeapYear y then 29 else 28)
  else if m = 4 || m = 6 || m = 9 || m = 11 then 30
  else 31

/-- Day number of the civil date `(y, m, d)` relative to 1970-01-01 (standard
era-based conversion; strictly monotone over valid dates, so comparing two
`PyDateTime` values agrees with Python's field-lexicographic comparison). -/
def days_from_civil (y m d : Nat) : Int :=
  let yi : Int := if m ≤ 2 then (y : Int) - 1 else (y : Int)
  let era : Int := yi.fdiv 400
  let yoe : Int := yi - era * 400
  let mp : Int := ((m : Int) + 9) % 12
  let doy : Int := (153 * mp + 2).fdiv 5 + (d : Int) - 1
  let doe : Int := yoe * 365 + yoe.fdiv 4 - yoe.fdiv 100 + doy
  era * 146097 + doe - 719468

/-- Inverse of `days_from_civil`: the civil date `(y, m, d)` of a day number. -/
def civil_from_days (z0 : Int) : Int × Int × Int :=
  let z : Int := z0 + 719468
  let era : Int := z.fdiv 146097
  let doe : Int := z - era * 146097
  let yoe : Int := (doe - doe.fdiv 1460 + doe.fdiv 36524 - doe.fdiv 146096).fdiv 365
  let y : Int := yoe + era * 400
  let doy : Int := doe - (365 * yoe + yoe.fdiv 4 - yoe.fdiv 100)
  let mp : Int := (5 * doy + 2).fdiv 153
  let d : Int := doy - (153 * mp + 2).fdiv 5 + 1
  let m : Int := if mp < 10 then mp + 3 else mp - 9
  (if m ≤ 2 then y + 1 else y, m, d)

/- ------------------------------------------------ -/
/- String parsing helpers (strptime / fromisoformat) -/
/- ------------------------------------------------ -/

/-- Numeric value of a decimal digit character. -/
def digitVal (c : Char) : Nat := c.toNat - 48

/-- Read exactly two decimal digits from the front of a character list. -/
def takeDigits2 : List Char → Option (Nat × List Char)
  | a :: b :: rest =>
      if a.isDigit && b.isDigit then some (digitVal a * 10 + digitVal b, rest)
      else none
  | _ => none

/-- Read exactly four decimal digits from the front of a character list. -/
def takeDigits4 : List Char → Option (Nat × List Char)
  | a :: b :: c :: d :: rest =>
      if a.isDigit && b.isDigit && c.isDigit && d.isDigit then
        some (((digitVal a * 10 + digitVal b) * 10 + digitVal c) * 10 + digitVal d, rest)
      else none
  | _ => none

/-- Read one or two decimal digits, greedily taking two when the two-digit
value does not exceed `mx`; this is how the regular expressions generated by
CPython's strptime for `%m`, `%d`, `%H`, `%M` behave. -/
def takeNum1or2 (mx : Nat) : List Char → Option (Nat × List Char)
  | a :: b :: rest =>
      if a.isDigit then
        if b.isDigit && digitVal a * 10 + digitVal b ≤ mx then
          some (digitVal a * 10 + digitVal b, rest)
        else some (digitVal a, b :: rest)
      else none
  | [a] => if a.isDigit then some (digitVal a, []) else none
  | [] => none

/-- Model of `datetime.strptime(s, "%H:%M")`, returning minutes after
midnight; `none` models the ValueError Python raises on a mismatch. -/
def parseHM (s : String) : Option Nat :=
  match takeNum1or2 23 s.data with
  | some (h, ':' :: rest) =>
      match takeNum1or2 59 rest with
      | some (m, []) => some (h * 60 + m)
      | _ => none
  | _ => none

/-- Model of `datetime.strptime(s, "%Y-%m-%d")`, returning the day number of
the parsed date (strptime requires exactly four year digits, 1-2 digit month
and day, and a valid calendar date). -/
def parseDateStrptime (s : String) : Option Int :=
  match takeDigits4 s.data with
  | some (y, '-' :: r1) =>
      match takeNum1or2 12 r1 with
      | some (mo, '-' :: r2) =>
          match takeNum1or2 31 r2 with
          | some (d, []) =>
              if 1 ≤ y && 1 ≤ mo && 1 ≤ d && d ≤ daysInMonth y mo then
                some (days_from_civil y mo d)
              else none
          | _ => none
      | _ => none
  | _ => none

/-- Zero-padded two-digit decimal rendering, as strftime `%H` / `%M` emit. -/
def pad2 (n : Nat) : String :=
  (if n < 10 then "0" else "") ++ Nat.repr n

/-- Model of `datetime.strftime(dt, "%H:%M")` for a clock value given in
minutes after midnight (`n < 1440`). -/
def formatHM (n : Nat) : String :=
  pad2 (n / 60) ++ ":" ++ pad2 (n % 60)

/-- Parse an optional ISO-8601 UTC offset suffix `+HH:MM` / `-HH:MM` (after
`'Z'` has been textually replaced by `+00:00`), in seconds. -/
def parseIsoOffset : List Char → Option (Option Int)
  | [] => some none
  | sign :: rest =>
      if sign = '+' || sign = '-' then
        match takeDigits2 rest with
        | some (oh, ':' :: r1) =>
            match takeDigits2 r1 with
            | some (om, []) =>
                if oh ≤ 23 && om ≤ 59 then
                  let off : Int := (oh : Int) * 3600 + (om : Int) * 60
                  some (some (if sign = '-' then -off else off))
                else none
            | _ => none
        | _ => none
      else none

/-- Parse an optional `:SS` seconds component followed by the offset. -/
def parseIsoSecondsAndOffset : List Char → Option (Nat × Option Int)
  | ':' :: rest =>
      match takeDigits2 rest with
      | some (sec, r1) =>
          if sec ≤ 59 then
            match parseIsoOffset r1 with
            | some off => some (sec, off)
            | none => none
          else none
      | none => none
  | rest =>
      match parseIsoOffset rest with
      | some off => some (0, off)
      | none => none

/-- Model of `datetime.fromisoformat` on the profile of ISO-8601 strings the
feed uses: `YYYY-MM-DD` + (`T` or space) + `HH:MM[:SS]` + optional
`+HH:MM` / `-HH:MM` offset (the caller textually replaces a trailing `Z`
with `+00:00` first, exactly like the source does).  Returns `none` for the
ValueError Python raises on malformed input. -/
def fromisoformat (s : String) : Option PyDateTime :=
  match takeDigits4 s.data with
  | some (y, '-' :: r1) =>
      match takeDigits2 r1 with
      | some (mo, '-' :: r2) =>
          match takeDigits2 r2 with
          | some (d, sep :: r3) =>
              if (sep = 'T' || sep = ' ') && 1 ≤ y && 1 ≤ mo && mo ≤ 12 &&
                  1 ≤ d && d ≤ daysInMonth y mo then
                match takeDigits2 r3 with
                | some (h, ':' :: r4) =>
                    match takeDigits2 r4 with
                    | some (mi, r5) =>
                        if h ≤ 23 && mi ≤ 59 then
                          match parseIsoSecondsAndOffset r5 with
                          | some (sec, off) =>
                              some ⟨days_from_civil y mo d * 86400 +
                                    (h : Int) * 3600 + (mi : Int) * 60 + (sec : Int), off⟩
                          | none => none
                        else none
                    | _ => none
                | _ => none
              else none
          | _ => none
      | _ => none
  | _ => none

/-- Model of `datetime.strptime(f"{date_str} {time_str}", "%Y-%m-%d %H:%M")`
as used by `parse_datetime`: both components must parse and the result is the
naive datetime (no offset).  `none` models the ValueError path, on which
`parse_datetime` prints an error and calls `sys.exit(1)`. -/
def parse_datetime (date_str time_str : String) : Option PyDateTime :=
  match parseDateStrptime date_str, parseHM time_str with
  | some days, some mins => some ⟨days * 86400 + (mins : Int) * 60, none⟩
  | _, _ => none

/- -------------------------------- -/
/- FeedPaginator (PlacesLeisureAPI) -/
/- -------------------------------- -/

/-- The well-known base URL of the feed (`PlacesLeisureAPI.BASE_URL`). -/
def BASE_URL : String :=
  "https://opendata.leisurecloud.live/api/feeds/PlacesLeisure-live-slots"

/-- Model of `fetch_slots`: the HTTP layer is a function from URL to an
optional page; `none` stands for any `requests.RequestException` (network
error, non-2xx status, malformed body), on which the source prints an error
and calls `sys.exit(1)`. -/
def fetch_slots (feed : String → Option Page) (after_url : Option String) :
    Except PyFail Page :=
  match feed (after_url.getD BASE_URL) with
  | some page => .ok page
  | none => .error (.systemExit 1)

/-- The body of the `while True` loop of `fetch_all_slots`, as structural
recursion on the remaining page budget.  The source increments `page_count`
per fetched page and breaks once `page_count > 1000`, so at most 1001 pages
are ever fetched; the fuel starts at 1001 and each fetch consumes one unit.
The two stop conditions are checked in source order: first the RPDE terminal
condition (empty `items` and `next` equal to the URL just requested), then
the falsy-`next` fallback. -/
def fetch_all_slots_loop (feed : String → Option Page) :
    Nat → Option String → List SlotItem → Except PyFail (List SlotItem)
  | 0, _, all_slots => .ok all_slots
  | fuel + 1, next_url, all_slots =>
      match fetch_slots feed next_url with
      | .error e => .error e
      | .ok data =>
          let all_slots := all_slots ++ data.items
          let current_url := next_url.getD BASE_URL
          if data.items = [] ∧ data.next = some current_url then .ok all_slots
          else
            match data.next with
            | none => .ok all_slots
            | some u =>
                if u = "" then .ok all_slots
                else fetch_all_slots_loop feed fuel (some u) all_slots

/-- Model of `fetch_all_slots`: follow RPDE pagination from the base URL,
accumulating every page's `items` in arrival order. -/
def fetch_all_slots (feed : String → Option Page) : Except PyFail (List SlotItem) :=
  fetch_all_slots_loop feed 1001 none []

/-- Lift a never-failing feed into the transport layer. -/
def liftFeed (feed : String → Page) : String → Option Page :=
  fun u => some (feed u)

/-- The sequence of URLs the loop requests against a never-failing feed,
computed by the same recursion as `fetch_all_slots_loop`. -/
def fetch_page_trace (feed : String → Page) : Nat → Option String → List String
  | 0, _ => []
  | fuel + 1, next_url =>
      let current_url := next_url.getD BASE_URL
      let data := feed current_url
      current_url ::
        (if data.items = [] ∧ data.next = some current_url then []
         else
           match data.next with
           | none => []
           | some u => if u = "" then [] else fetch_page_trace feed fuel (some u))

/-- A chain of non-terminal page URLs `us` ending in a terminal URL `t`:
each non-terminal page's `next` leads to the following URL, which is
non-empty and does not form the RPDE terminal pattern with it, and the
terminal page has empty `items` with `next` pointing at itself. -/
def feedChain (feed : String → Page) : List String → String → Bool
  | [], t => decide ((feed t).items = []) && decide ((feed t).next = some t)
  | u :: rest, t =>
      let b := rest.headD t
      decide ((feed u).next = some b) && !decide (b = "") &&
        !(decide ((feed u).items = []) && decide (b = u)) && feedChain feed rest t

/- ------------------------------------------- -/
/- AvailabilityResolver: datetimes and filtering -/
/- ------------------------------------------- -/

/-- Python comparison `a < b` on datetimes: naive pairs compare by naive
value, aware pairs compare as instants (naive minus utcoffset), and a mixed
pair raises TypeError, which the filter does not catch. -/
def dtLt (a b : PyDateTime) : Except PyFail Bool :=
  match a.tz, b.tz with
  | none, none => .ok (decide (a.naive < b.naive))
  | some x, some y => .ok (decide (a.naive - x < b.naive - y))
  | _, _ => .error (.exc "cannot compare offset-naive and offset-aware datetimes")

/-- The `.date()` of a datetime: the civil day of the naive value. -/
def dateOf (dt : PyDateTime) : Int := dt.naive.fdiv 86400

/-- Model of `time_overlaps`: `(slot_start < check_end) and (slot_end >
check_start)` with Python's short-circuit evaluation (the second comparison
is not evaluated when the first is false). -/
def time_overlaps (slot_start slot_end check_start check_end : PyDateTime) :
    Except PyFail Bool :=
  match dtLt slot_start check_end with
  | .error e => .error e
  | .ok false => .ok false
  | .ok true => dtLt check_start slot_end

/-- Whether the first character list is a prefix of the second. -/
def charsPrefixOf : List Char → List Char → Bool
  | [], _ => true
  | _ :: _, [] => false
  | a :: as, b :: bs => decide (a = b) && charsPrefixOf as bs

/-- Whether the first character list occurs contiguously in the second. -/
def charsInfixOf (needle : List Char) : List Char → Bool
  | [] => decide (needle = [])
  | c :: rest => charsPrefixOf needle (c :: rest) || charsInfixOf needle rest

/-- Python substring membership `needle in hay` on strings. -/
def pySubstr (needle hay : String) : Bool :=
  charsInfixOf needle.data hay.data

/-- Replace every occurrence of the character `c` by `repl`, the behaviour of
Python `s.replace(pattern, repl)` for the one-character pattern the source
uses (`.replace('Z', '+00:00')`). -/
def replaceChar (c : Char) (repl : List Char) : List Char → List Char
  | [] => []
  | x :: xs =>
      if x = c then repl ++ replaceChar c repl xs else x :: replaceChar c repl xs

/-- Python `s.replace(c, repl)` for a one-character pattern. -/
def pyReplace (s : String) (c : Char) (repl : String) : String :=
  ⟨replaceChar c repl.data s.data⟩

/-- The facility identifiers of the target resource class
(`squash_facility_ids` in both the filter and the aggregation). -/
def squash_facility_ids : List String := ["041A000005"]

/-- The membership test of `filter_squash_slots_by_time`:
`any(facility_id in facility_use for facility_id in squash_facility_ids)` —
a substring test. -/
def filterClassTest (facility_use : String) : Bool :=
  squash_facility_ids.any (fun fid => pySubstr fid facility_use)

/-- The `try` block of the filter loop for one already-class-matched item:
parse the item's two timestamps (KeyError and ValueError are caught, dropping
the item with the target bounds untouched), coerce offset-naive target bounds
to the item's offsets, and evaluate the date-equality and overlap tests
(whose naive/aware comparison can raise an uncaught TypeError).  Returns
whether the item is retained together with the updated target bounds. -/
def filterStep (slot_data : SlotData) (target_start target_end : PyDateTime) :
    Except PyFail (Bool × PyDateTime × PyDateTime) :=
  match slot_data.startDate with
  | none => .ok (false, target_start, target_end)
  | some sds =>
      match slot_data.endDate with
      | none => .ok (false, target_start, target_end)
      | some eds =>
          match fromisoformat (pyReplace sds 'Z' "+00:00"),
                fromisoformat (pyReplace eds 'Z' "+00:00") with
          | some slot_start, some slot_end =>
              let target_start :=
                if target_start.tz = none then { target_start with tz := slot_start.tz }
                else target_start
              let target_end :=
                if target_end.tz = none then { target_end with tz := slot_end.tz }
                else target_end
              if dateOf slot_start = dateOf target_start then
                match time_overlaps slot_start slot_end target_start target_end with
                | .error e => .error e
                | .ok keep => .ok (keep, target_start, target_end)
              else .ok (false, target_start, target_end)
          | _, _ => .ok (false, target_start, target_end)

/-- The loop of `filter_squash_slots_by_time` applied to the remaining items,
threading the accumulator and the (possibly tz-coerced) target bounds. -/
def filterLoop : List SlotItem → List SlotItem → PyDateTime → PyDateTime →
    Except PyFail (List SlotItem)
  | [], filtered_slots, _, _ => .ok filtered_slots
  | item :: rest, filtered_slots, target_start, target_end =>
      match item.data with
      | none => filterLoop rest filtered_slots target_start target_end
      | some slot_data =>
          if !filterClassTest (slot_data.facilityUse.getD "") then
            filterLoop rest filtered_slots target_start target_end
          else
            match filterStep slot_data target_start target_end with
            | .error e => .error e
            | .ok (keep, target_start, target_end) =>
                filterLoop rest (if keep then filtered_slots ++ [item] else filtered_slots)
                  target_start target_end

/-- Model of `filter_squash_slots_by_time`: parse the two window bounds with
`parse_datetime` (whose failure path prints and exits the process), then
retain the squash-class items on the target date overlapping the window. -/
def filter_squash_slots_by_time (slots : List SlotItem)
    (target_date start_time end_time : String) : Except PyFail (List SlotItem) :=
  match parse_datetime target_date start_time with
  | none => .error (.systemExit 1)
  | some target_start =>
      match parse_datetime target_date end_time with
      | none => .error (.systemExit 1)
      | some target_end => filterLoop slots [] target_start target_end

/- --------------------------------------------- -/
/- AvailabilityResolver: aggregation by resource -/
/- --------------------------------------------- -/

/-- Lookup in an insertion-ordered dict (`court_info[name]` / `name in
court_info`). -/
def dictGet (m : CourtMap) (k : String) : Option CourtData :=
  (m.find? (fun p => decide (p.1 = k))).map (fun p => p.2)

/-- Assignment `court_info[name] = value` on an insertion-ordered dict:
replace in place when the key exists (keys are unique, as in a Python dict),
append otherwise. -/
def dictSet : CourtMap → String → CourtData → CourtMap
  | [], k, v => [(k, v)]
  | p :: rest, k, v => if p.1 = k then (k, v) :: rest else p :: dictSet rest k v

/-- The update block repeated at every aggregation site: create the entry
with the given id if absent (`available=False`, `remaining_uses=0`, empty
`slots`), then fold in one period: `remaining_uses` becomes the running
maximum, `available` is set once `remaining_uses > 0`, and the period dict is
appended to `slots`. -/
def updateCourt (court_name court_id : String) (start stop : Option String)
    (remaining_uses : Int) (court_info : CourtMap) : CourtMap :=
  let cur := match dictGet court_info court_name with
    | some cd => cd
    | none => ⟨court_id, false, 0, []⟩
  dictSet court_info court_name
    { cur with
      remaining_uses := max cur.remaining_uses remaining_uses,
      available := cur.available || decide (remaining_uses > 0),
      slots := cur.slots ++ [⟨start, stop, remaining_uses⟩] }

/-- Model of `_process_missing_slot`: clear the whole map and create only the
generic "Available Courts" / `partial_booking` entry from the given slot
data (the function reads but never uses the locations). -/
def _process_missing_slot (slot_data : SlotData) (_court_info : CourtMap) : CourtMap :=
  let remaining_uses := slot_data.remainingUses.getD 0
  [("Available Courts",
    ⟨"partial_booking", decide (remaining_uses > 0), remaining_uses,
      [⟨slot_data.startDate, slot_data.endDate, remaining_uses⟩]⟩)]

/-- Model of `_process_single_slot`.  With no embedded locations the item is
recorded under a name synthesized from its identifier; otherwise one entry
per location is recorded (fan-out).  Afterwards, when the item matches the
partial-booking pattern (`remainingUses == 0`, a first offer with price > 0)
and has exactly two locations, a synthetic slot with `remainingUses = 1` and
a zero-price offer is built and `_process_missing_slot` replaces the whole
map with the generic entry. -/
def _process_single_slot (slot_data : SlotData) (court_info : CourtMap) : CourtMap :=
  let locations := slot_data.locations
  let remaining_uses := slot_data.remainingUses.getD 0
  let offers := slot_data.offers
  let is_partially_booked :=
    decide (remaining_uses = 0) && decide (offers.length > 0) &&
      decide ((offers.headD ⟨none⟩).price.getD 0 > 0)
  let court_info :=
    if locations = [] then
      let court_name := "Squash Court (" ++ slot_data.identifier.getD "Unknown" ++ ")"
      let court_id := slot_data.identifier.getD "Unknown"
      updateCourt court_name court_id slot_data.startDate slot_data.endDate
        remaining_uses court_info
    else
      locations.foldl (fun ci location =>
        let location_name := location.name.getD ""
        let location_id := location.identifier.getD ""
        let court_name :=
          if location_name ≠ "" then location_name
          else "Squash Court (" ++ location_id ++ ")"
        let court_id :=
          if location_id ≠ "" then location_id else slot_data.identifier.getD "Unknown"
        updateCourt court_name court_id slot_data.startDate slot_data.endDate
          remaining_uses ci) court_info
  if is_partially_booked && decide (locations.length = 2) then
    let missing_slot_data : SlotData :=
      { startDate := slot_data.startDate, endDate := slot_data.endDate,
        facilityUse := none, remainingUses := some 1,
        offers := [⟨some 0⟩], locations := locations, identifier := none }
    _process_missing_slot missing_slot_data court_info
  else court_info

/-- The first offer's price with default 0:
`offers[0].get('price', 0) if offers else 0`. -/
def firstPrice (offers : List Offer) : Rat :=
  match offers with
  | [] => 0
  | o :: _ => o.price.getD 0

/-- The economic signature used by `_process_multiple_court_slots` to call an
item "the available court": `remaining_uses > 0 and price > 0`. -/
def isAvailableCourt (slot_data : SlotData) : Bool :=
  decide (slot_data.remainingUses.getD 0 > 0) && decide (firstPrice slot_data.offers > 0)

/-- The court name and id an item of a multi-item group is assigned to:
the available signature maps to the fixed second court, everything else to
the fixed first court; when the item's own locations contain an entry whose
name equals the inferred target name the first such location's identifier is
preferred over the fixed constant. -/
def multiCourtTarget (slot_data : SlotData) : String × String :=
  let target :=
    if isAvailableCourt slot_data then ("Squash Court 2", "041ZSQU002")
    else ("Squash Court 1", "041ZSQU001")
  match slot_data.locations.find? (fun location => decide (location.name.getD "" = target.1)) with
  | some location => (target.1, location.identifier.getD "")
  | none => target

/-- Lexicographic comparison of character lists by code point, which is how
Python compares the identifier strings in `slot_group.sort(key=...)`. -/
def charsLt : List Char → List Char → Bool
  | [], [] => false
  | [], _ :: _ => true
  | _ :: _, [] => false
  | a :: as, b :: bs => if a < b then true else if b < a then false else charsLt as bs

/-- Python string comparison `a < b` (code-point lexicographic). -/
def pyStrLt (a b : String) : Bool := charsLt a.data b.data

/-- Stable insertion of an element into a list sorted by a string key: the
element goes after all elements whose key is not greater. -/
def insertByKey (key : SlotData → String) (x : SlotData) : List SlotData → List SlotData
  | [] => [x]
  | y :: ys => if pyStrLt (key x) (key y) then x :: y :: ys else y :: insertByKey key x ys

/-- Stable sort by a string key, modelling Python's stable
`list.sort(key=...)` with string comparison by code points. -/
def sortByKey (key : SlotData → String) (l : List SlotData) : List SlotData :=
  l.foldl (fun acc x => insertByKey key x acc) []

/-- Model of `_process_multiple_court_slots`: sort the group by
`identifier` for consistent assignment, then record each item under the
court chosen by `multiCourtTarget`. -/
def _process_multiple_court_slots (slot_group : List SlotData)
    (court_info : CourtMap) : CourtMap :=
  let sorted := sortByKey (fun d => d.identifier.getD "") slot_group
  sorted.foldl (fun ci slot_data =>
    let target := multiCourtTarget slot_data
    updateCourt target.1 target.2 slot_data.startDate slot_data.endDate
      (slot_data.remainingUses.getD 0) ci) court_info

/-- Split a character list on a separator character, modelling Python
`str.split(sep)` for a one-character separator. -/
def splitOnChar (c : Char) : List Char → List (List Char)
  | [] => [[]]
  | x :: xs =>
      match splitOnChar c xs with
      | [] => [[]]
      | g :: gs => if x = c then [] :: g :: gs else (x :: g) :: gs

/-- The facility id extracted by the aggregation stage:
`facility_use.split('/')[-1] if '/' in facility_use else facility_use`
(`splitOnChar` is Python `str.split` for the one-character separator the
source uses, and never returns an empty list). -/
def aggFacilityId (facility_use : String) : String :=
  if facility_use.data.contains '/' then
    ⟨(splitOnChar '/' facility_use.data).getLastD []⟩
  else facility_use

/-- Append a slot's data to its start-time group in the insertion-ordered
group dict (`time_slots`); a fresh key is appended at the end, an existing
key's group grows in place. -/
def addToGroup : List (String × List SlotData) → String → SlotData →
    List (String × List SlotData)
  | [], k, d => [(k, [d])]
  | p :: rest, k, d =>
      if p.1 = k then (p.1, p.2 ++ [d]) :: rest else p :: addToGroup rest k d

/-- The grouping pass of `get_squash_court_availability`: keep items whose
extracted facility id is exactly a squash facility id, grouped by the raw
`startDate` string. -/
def buildTimeSlots (slots : List SlotItem) : List (String × List SlotData) :=
  slots.foldl (fun ts slot_item =>
    match slot_item.data with
    | none => ts
    | some slot_data =>
        let facility_use := slot_data.facilityUse.getD ""
        if aggFacilityId facility_use ∈ squash_facility_ids then
          addToGroup ts (slot_data.startDate.getD "") slot_data
        else ts) []

/-- Model of `get_squash_court_availability`: group the squash items by
start time, then process single-item groups with `_process_single_slot` and
larger groups with `_process_multiple_court_slots`. -/
def get_squash_court_availability (slots : List SlotItem) : CourtMap :=
  (buildTimeSlots slots).foldl (fun court_info p =>
    match p.2 with
    | [slot_data] => _process_single_slot slot_data court_info
    | slot_group => _process_multiple_court_slots slot_group court_info) []

/- --------------------------------------- -/
/- Orchestration and the programmatic report -/
/- --------------------------------------- -/

/-- Zero-padded four-digit decimal rendering for strftime `%Y`. -/
def pad4 (n : Nat) : String :=
  (if n < 10 then "000" else if n < 100 then "00" else if n < 1000 then "0" else "") ++
    Nat.repr n

/-- Model of `strftime("%Y-%m-%dT%H:%M:%S.000Z")` on a UTC instant given in
seconds, as used for the booking URL parameters. -/
def strftimeIsoMillisZ (instant : Int) : String :=
  let days := instant.fdiv 86400
  let secs := (instant - days * 86400).toNat
  let ymd := civil_from_days days
  pad4 ymd.1.toNat ++ "-" ++ pad2 ymd.2.1.toNat ++ "-" ++ pad2 ymd.2.2.toNat ++ "T" ++
    pad2 (secs / 3600) ++ ":" ++ pad2 (secs % 3600 / 60) ++ ":" ++ pad2 (secs % 60) ++
    ".000Z"

/-- Model of `check_squash_availability`: resolve the two fixed 40-minute
windows around the requested start time, fetch the whole feed, filter each
window and aggregate each filtered set.  The result tuple is
`(main_court_info, before_court_info, main_start, main_end, before_start,
before_end)`; failures are the uncaught exceptions of the corresponding
Python code paths. -/
def check_squash_availability (feed : String → Option Page)
    (target_date start_time : String) :
    Except PyFail (CourtMap × CourtMap × String × String × String × String) :=
  match parseHM start_time with
  | none => .error (.exc "time data does not match format")
  | some mins =>
      let main_start := start_time
      let main_end := formatHM ((mins + 40) % 1440)
      let before_start := formatHM ((mins + 1400) % 1440)
      let before_end := start_time
      match fetch_all_slots feed with
      | .error e => .error e
      | .ok all_slots =>
          match filter_squash_slots_by_time all_slots target_date main_start main_end with
          | .error e => .error e
          | .ok main_slots =>
              match filter_squash_slots_by_time all_slots target_date before_start before_end with
              | .error e => .error e
              | .ok before_slots =>
                  .ok (get_squash_court_availability main_slots,
                       get_squash_court_availability before_slots,
                       main_start, main_end, before_start, before_end)

/-- The four resolved window boundary strings of the report
(`result["time_slots"]`). -/
structure TimeSlots where
  main_start : String
  main_end : String
  before_start : String
  before_end : String
deriving DecidableEq, Repr

/-- The dict returned by `check_availability_programmatic`.  The success
path fills every field; the failure path fills only `success`, `message`,
`booking_url` and `error`, leaving the rest absent (`none`). -/
structure Report where
  success : Bool
  message : String
  booking_url : String
  main_slot_available : Option Nat
  before_slot_available : Option Nat
  main_court_info : Option CourtMap
  before_court_info : Option CourtMap
  time_slots : Option TimeSlots
  error : Option String
deriving DecidableEq, Repr

/-- What the caller of `check_availability_programmatic` observes: either a
returned report dict, or process termination through an uncaught
`SystemExit` (the `except Exception` clause does not catch it). -/
inductive ProgResult where
  | exits (code : Int)
  | returns (r : Report)
deriving DecidableEq, Repr

/-- The generic, non-parameterized booking deep link used by the failure
report. -/
def genericBookingUrl : String :=
  "https://placesleisure.gladstonego.cloud/book/calendar/041A000005"

/-- Count of available resources in one window:
`sum(1 for court_data in info.values() if court_data['available'])`. -/
def countAvailable (info : CourtMap) : Nat :=
  (info.filter (fun p => p.2.available)).length

/-- The message/success selection of `check_availability_programmatic`,
templated on the count of resources available in the before window. -/
def availabilityMessage (before_available : Nat) : String × Bool :=
  if before_available > 0 then
    (if before_available = 1 then "There is one slot free before your booking"
     else "There are " ++ Nat.repr before_available ++ " slots free before your booking",
     true)
  else ("There is no slots free before your booking", false)

/-- The booking-URL construction of the success path:
`strptime(f"{target_date}T{before_start}:00", "%Y-%m-%dT%H:%M:%S")` is taken
as UTC, the previous activity date is 40 minutes earlier, and both are
formatted with millisecond precision; a parse failure is the uncaught
ValueError of the Python code. -/
def buildBookingUrl (target_date before_start : String) : Except PyFail String :=
  match parseDateStrptime target_date, parseHM before_start with
  | some days, some mins =>
      let before_instant : Int := days * 86400 + (mins : Int) * 60
      let previous_instant : Int := before_instant - 40 * 60
      .ok (genericBookingUrl ++ "?activityDate=" ++ strftimeIsoMillisZ before_instant ++
        "&previousActivityDate=" ++ strftimeIsoMillisZ previous_instant)
  | _, _ => .error (.exc "time data does not match format")

/-- The body of the `try` block of `check_availability_programmatic`,
producing the success report. -/
def progBody (feed : String → Option Page) (target_date start_time : String) :
    Except PyFail Report :=
  match check_squash_availability feed target_date start_time with
  | .error e => .error e
  | .ok (main_court_info, before_court_info, main_start, main_end, before_start, before_end) =>
      let main_available := countAvailable main_court_info
      let before_available := countAvailable before_court_info
      let ms := availabilityMessage before_available
      match buildBookingUrl target_date before_start with
      | .error e => .error e
      | .ok booking_url =>
          .ok { success := ms.2, message := ms.1, booking_url := booking_url,
                main_slot_available := some main_available,
                before_slot_available := some before_available,
                main_court_info := some main_court_info,
                before_court_info := some before_court_info,
                time_slots := some ⟨main_start, main_end, before_start, before_end⟩,
                error := none }

/-- Model of `check_availability_programmatic`: run the body inside
`try ... except Exception`.  An ordinary exception is converted into the
failure-shaped report (success `False`, a message embedding the failure
description, the generic booking URL); a `SystemExit` is not caught and
terminates the process. -/
def check_availability_programmatic (feed : String → Option Page)
    (target_date start_time : String) : ProgResult :=
  match progBody feed target_date start_time with
  | .ok r => .returns r
  | .error (.exc msg) =>
      .returns { success := false,
                 message := "Error checking availability: " ++ msg,
                 booking_url := genericBookingUrl,
                 main_slot_available := none, before_slot_available := none,
                 main_court_info := none, before_court_info := none,
                 time_slots := none, error := some msg }
  | .error (.systemExit code) => .exits code

/- ----------------- -/
/- General lemmas     -/
/- ----------------- -/

set_option maxHeartbeats 4000000 in
theorem parseHM_pads : ∀ h, h < 24 → ∀ m, m < 60 →
    parseHM (pad2 h ++ ":" ++ pad2 m) = some (h * 60 + m) := by decide

theorem parseHM_formatHM (n : Nat) (hn : n < 1440) : parseHM (formatHM n) = some n := by
  have h1 : n / 60 < 24 := Nat.div_lt_of_lt_mul hn
  have h2 : n % 60 < 60 := Nat.mod_lt _ (by norm_num)
  rw [formatHM, parseHM_pads (n / 60) h1 (n % 60) h2]
  congr 1
  omega

theorem dictGet_nil (q : String) : dictGet [] q = none := rfl

theorem dictGet_cons (a : String) (b : CourtData) (l : CourtMap) (q : String) :
    dictGet ((a, b) :: l) q = if a = q then some b else dictGet l q := by
  by_cases h : a = q <;> simp [dictGet, List.find?_cons, h]

theorem dictGet_dictSet (m : CourtMap) (k : String) (v : CourtData) (q : String) :
    dictGet (dictSet m k v) q = if q = k then some v else dictGet m q := by
  induction m with
  | nil =>
      by_cases h : q = k
      · subst h; simp [dictSet, dictGet_cons]
      · simp [dictSet, dictGet_cons, dictGet_nil, h, Ne.symm h]
  | cons p rest ih =>
      obtain ⟨a, b⟩ := p
      by_cases hak : a = k
      · subst hak
        by_cases hq : q = a
        · subst hq; simp [dictSet, dictGet_cons]
        · simp [dictSet, dictGet_cons, hq, Ne.symm hq]
      · by_cases haq : a = q
        · subst haq
          simp [dictSet, dictGet_cons, hak]
        · simp [dictSet, dictGet_cons, hak, haq, ih]

theorem mem_dictSet (m : CourtMap) (k : String) (v : CourtData)
    (p : String × CourtData) (hp : p ∈ dictSet m k v) : p = (k, v) ∨ p ∈ m := by
  induction m with
  | nil => simpa [dictSet] using hp
  | cons q rest ih =>
      by_cases h : q.1 = k
      · simp only [dictSet, h, if_pos] at hp
        rcases List.mem_cons.mp hp with h1 | h1
        · exact Or.inl h1
        · exact Or.inr (List.mem_cons_of_mem _ h1)
      · simp only [dictSet, h, if_neg, not_false_iff] at hp
        rcases List.mem_cons.mp hp with h1 | h1
        · exact Or.inr (h1 ▸ List.mem_cons_self _ _)
        · rcases ih h1 with h2 | h2
          · exact Or.inl h2
          · exact Or.inr (List.mem_cons_of_mem _ h2)

theorem dictGet_mem (m : CourtMap) (k : String) (cd : CourtData)
    (h : dictGet m k = some cd) : (k, cd) ∈ m := by
  induction m with
  | nil => simp [dictGet_nil] at h
  | cons p rest ih =>
      obtain ⟨a, b⟩ := p
      rw [dictGet_cons] at h
      by_cases hq : a = k
      · rw [if_pos hq] at h
        injection h with h
        subst hq
        subst h
        exact List.mem_cons_self _ _
      · rw [if_neg hq] at h
        exact List.mem_cons_of_mem _ (ih h)

/-- The entry produced by `updateCourt` at its own key. -/
def updatedEntry (court_id : String) (start stop : Option String)
    (remaining_uses : Int) (cur0 : Option CourtData) : CourtData :=
  let cur := cur0.getD ⟨court_id, false, 0, []⟩
  { cur with
    remaining_uses := max cur.remaining_uses remaining_uses,
    available := cur.available || decide (remaining_uses > 0),
    slots := cur.slots ++ [⟨start, stop, remaining_uses⟩] }

theorem dictGet_updateCourt (n i : String) (st sp : Option String) (r : Int)
    (m : CourtMap) (q : String) :
    dictGet (updateCourt n i st sp r m) q =
      if q = n then some (updatedEntry i st sp r (dictGet m n)) else dictGet m q := by
  unfold updateCourt updatedEntry
  rw [dictGet_dictSet]
  cases h : dictGet m n <;> simp [h]

theorem dtLt_tz_eq (a b : PyDateTime) (h : a.tz = b.tz) :
    dtLt a b = .ok (decide (a.naive < b.naive)) := by
  obtain ⟨an, az⟩ := a
  obtain ⟨bn, bz⟩ := b
  simp only at h
  subst h
  cases az <;> simp [dtLt]

theorem time_overlaps_uniform (a b c d : PyDateTime)
    (h1 : a.tz = d.tz) (h2 : c.tz = b.tz) :
    time_overlaps a b c d = .ok (decide (a.naive < d.naive) && decide (c.naive < b.naive)) := by
  unfold time_overlaps
  rw [dtLt_tz_eq a d h1, dtLt_tz_eq c b h2]
  by_cases h : a.naive < d.naive <;> simp [h]

/- ----------------- -/
/- Claim C7           -/
/- ----------------- -/

/-- C7: `time_overlaps` implements strict half-open interval overlap: on
intervals `[a,b)` and `[c,d)` whose endpoints share one offset (or are all
naive) it returns true iff `a < d` and `b > c`; in particular it returns
false whenever `b ≤ c`, and endpoint equality (`b = c`) is not an overlap. -/
theorem time_overlaps_halfopen (o : Option Int) (a b c d : Int) :
    time_overlaps ⟨a, o⟩ ⟨b, o⟩ ⟨c, o⟩ ⟨d, o⟩ = .ok (decide (a < d ∧ b > c)) ∧
    (b ≤ c → time_overlaps ⟨a, o⟩ ⟨b, o⟩ ⟨c, o⟩ ⟨d, o⟩ = .ok false) ∧
    (b = c → time_overlaps ⟨a, o⟩ ⟨b, o⟩ ⟨c, o⟩ ⟨d, o⟩ = .ok false) := by
  have hbase := time_overlaps_uniform ⟨a, o⟩ ⟨b, o⟩ ⟨c, o⟩ ⟨d, o⟩ rfl rfl
  simp only at hbase
  refine ⟨?_, ?_, ?_⟩
  · rw [hbase]
    congr 1
    by_cases h1 : a < d <;> by_cases h2 : c < b <;>
      simp [h1, h2, gt_iff_lt]
  · intro hbc
    rw [hbase]
    have : ¬c < b := not_lt.mpr hbc
    simp [this]
  · intro hbc
    rw [hbase]
    have : ¬c < b := by omega
    simp [this]

/-- Witness for C7 at the touching intervals `[0,10)` and `[10,20)`. -/
theorem time_overlaps_halfopen_witness :
    (10 : Int) ≤ 10 ∧
      time_overlaps ⟨0, none⟩ ⟨10, none⟩ ⟨10, none⟩ ⟨20, none⟩ = .ok false :=
  ⟨le_refl 10, (time_overlaps_halfopen none 0 10 10 20).2.1 (le_refl 10)⟩

theorem updateCourt_keeps_key (n i : String) (st sp : Option String) (r : Int)
    (m : CourtMap) (k : String) (h : (dictGet m k).isSome) :
    (dictGet (updateCourt n i st sp r m) k).isSome := by
  rw [dictGet_updateCourt]
  by_cases hk : k = n <;> simp [hk, h]

theorem foldl_keeps_key {α : Type} (step : CourtMap → α → CourtMap)
    (hstep : ∀ m x k, (dictGet m k).isSome → (dictGet (step m x) k).isSome) :
    ∀ (l : List α) (m : CourtMap) (k : String),
      (dictGet m k).isSome → (dictGet (l.foldl step m) k).isSome := by
  intro l
  induction l with
  | nil => intro m k h; simpa using h
  | cons x rest ih => intro m k h; exact ih (step m x) k (hstep m x k h)

/- ----------------- -/
/- Claim C9           -/
/- ----------------- -/

/-- A facility-use URI containing the squash id in a non-final segment. -/
def c9FacilityUse : String := "041A000005/other-segment"

/-- A feed item carrying `c9FacilityUse`, dated inside the window
`2026-02-03 [10:00, 10:40)`. -/
def c9Item : SlotItem :=
  ⟨some ⟨some "2026-02-03T10:00:00Z", some "2026-02-03T10:40:00Z",
    some c9FacilityUse, some 1, [], [], some "X1"⟩⟩

/-- C9: the filtering stage admits an item by a substring test on
`facilityUse` while the aggregation stage requires the final `/`-separated
segment to equal the id, so this concrete item passes
`filter_squash_slots_by_time` yet `get_squash_court_availability` silently
excludes it and produces no entry at all. -/
theorem filter_agg_membership_divergence :
    filterClassTest c9FacilityUse = true ∧
    (aggFacilityId c9FacilityUse ∈ squash_facility_ids → False) ∧
    filter_squash_slots_by_time [c9Item] "2026-02-03" "10:00" "10:40" = .ok [c9Item] ∧
    get_squash_court_availability [c9Item] = [] :=
  ⟨rfl, by decide, rfl, rfl⟩

/- ----------------- -/
/- Claim C2           -/
/- ----------------- -/

/-- C2: `_process_single_slot` performs the partial-booking reconstruction
exactly when the item has `remainingUses == 0`, a first offer with price
greater than 0, and exactly two embedded locations: then the whole map built
so far is discarded and replaced by the single synthetic "Available Courts"
entry (`id = "partial_booking"`, available, `remaining_uses = 1`, one period
with the item's start/end); when the three conditions do not all hold, every
key already present in the map survives processing of the group. -/
theorem partial_booking_reconstruction (d : SlotData) (m : CourtMap) :
    (d.remainingUses.getD 0 = 0 → d.offers.length > 0 →
      (d.offers.headD ⟨none⟩).price.getD 0 > 0 → d.locations.length = 2 →
      _process_single_slot d m =
        [("Available Courts",
          ⟨"partial_booking", true, 1, [⟨d.startDate, d.endDate, 1⟩]⟩)]) ∧
    (¬(d.remainingUses.getD 0 = 0 ∧ d.offers.length > 0 ∧
        (d.offers.headD ⟨none⟩).price.getD 0 > 0 ∧ d.locations.length = 2) →
      ∀ k, (dictGet m k).isSome → (dictGet (_process_single_slot d m) k).isSome) := by
  constructor
  · intro h1 h2 h3 h4
    have hloc : ¬d.locations = [] := by
      intro hh
      rw [hh] at h4
      simp at h4
    unfold _process_single_slot _process_missing_slot
    simp [h1, h2, h3, h4, hloc]
    rw [List.headD_eq_head?] at h3
    intro hcontra
    exact absurd h3 (not_lt.mpr hcontra)
  · intro hneg k hk
    have hcond : (decide (d.remainingUses.getD 0 = 0) && decide (d.offers.length > 0) &&
        decide ((d.offers.headD ⟨none⟩).price.getD 0 > 0) &&
        decide (d.locations.length = 2)) = false := by
      by_contra hc
      simp only [Bool.not_eq_false, Bool.and_eq_true, decide_eq_true_eq] at hc
      exact hneg ⟨hc.1.1.1, hc.1.1.2, hc.1.2, hc.2⟩
    unfold _process_single_slot
    simp only [Bool.and_assoc] at hcond ⊢
    rw [hcond]
    simp only [Bool.false_eq_true, if_false]
    by_cases hl : d.locations = []
    · simp only [hl, if_pos]
      exact updateCourt_keeps_key _ _ _ _ _ m k hk
    · simp only [hl, if_neg, not_false_iff]
      exact foldl_keeps_key _ (fun m x k h => updateCourt_keeps_key _ _ _ _ _ m k h)
        d.locations m k hk

/-- Concrete item matching the partial-booking pattern: `remainingUses = 0`,
first offer price `10.25`, exactly two locations. -/
def c2PartialItem : SlotData :=
  ⟨some "2026-02-03T10:00:00Z", some "2026-02-03T10:40:00Z", some "041A000005",
    some 0, [⟨some ⟨41, 4, by decide, by decide⟩⟩],
    [⟨some "Squash Court 1", some "L1"⟩, ⟨some "Squash Court 2", some "L2"⟩],
    some "A1"⟩

/-- The witness price is exactly the decimal `10.25` of the specification. -/
theorem c2_price_is_ten_and_a_quarter : (⟨41, 4, by decide, by decide⟩ : Rat) = 10.25 := by
  rw [Rat.mk'_eq_divInt]
  norm_num [Rat.divInt_eq_div]

/-- The same economic pattern but with zero embedded locations, which must
not trigger the reconstruction. -/
def c2NoLocItem : SlotData :=
  ⟨some "2026-02-03T10:00:00Z", some "2026-02-03T10:40:00Z", some "041A000005",
    some 0, [⟨some ⟨41, 4, by decide, by decide⟩⟩], [], some "A1"⟩

/-- A map with one previously built entry. -/
def c2PriorMap : CourtMap := [("Old Court", ⟨"oldid", true, 1, []⟩)]

/-- Witness for C2: the pattern item wipes the prior map down to the single
synthetic entry, and the zero-location item leaves the prior key in place. -/
theorem partial_booking_reconstruction_witness :
    _process_single_slot c2PartialItem c2PriorMap =
      [("Available Courts",
        ⟨"partial_booking", true, 1,
          [⟨some "2026-02-03T10:00:00Z", some "2026-02-03T10:40:00Z", 1⟩]⟩)] ∧
    (dictGet (_process_single_slot c2NoLocItem c2PriorMap) "Old Court").isSome :=
  ⟨(partial_booking_reconstruction c2PartialItem c2PriorMap).1
      (by decide) (by decide) (by decide) (by decide),
    (partial_booking_reconstruction c2NoLocItem c2PriorMap).2
      (by decide) "Old Court" (by decide)⟩

/- ----------------- -/
/- Claim C1           -/
/- ----------------- -/

/-- A squash-class item with two embedded locations and `remainingUses = 1`
(not the partial-booking pattern, since `remainingUses` is positive). -/
def c1Item : SlotItem :=
  ⟨some ⟨some "2026-02-03T10:00:00Z", some "2026-02-03T10:40:00Z", some "041A000005",
    some 1, [],
    [⟨some "Squash Court 1", some "L1"⟩, ⟨some "Squash Court 2", some "L2"⟩],
    some "A1"⟩⟩

/-- Counterexample to C1 as stated: a single target-class item with two
embedded locations contributes its period to two distinct entries of the
output map (the per-location fan-out of `_process_single_slot`), not to
exactly one. -/
theorem single_item_two_entries :
    get_squash_court_availability [c1Item] =
      [("Squash Court 1",
        ⟨"L1", true, 1, [⟨some "2026-02-03T10:00:00Z", some "2026-02-03T10:40:00Z", 1⟩]⟩),
       ("Squash Court 2",
        ⟨"L2", true, 1, [⟨some "2026-02-03T10:00:00Z", some "2026-02-03T10:40:00Z", 1⟩]⟩)] :=
  rfl

/-- The availability invariant of an aggregated map: an entry is available
iff one of its recorded periods had a positive remaining count. -/
def AvailInv (m : CourtMap) : Prop :=
  ∀ p ∈ m, p.2.available = true ↔ ∃ s ∈ p.2.slots, s.remaining > 0

theorem availInv_updateCourt (n i : String) (st sp : Option String) (r : Int)
    (m : CourtMap) (h : AvailInv m) : AvailInv (updateCourt n i st sp r m) := by
  intro p hp
  unfold updateCourt at hp
  rcases mem_dictSet _ _ _ p hp with he | hm
  · subst he
    cases hget : dictGet m n with
    | none => simp [hget]
    | some cd0 =>
        have h0 := h (n, cd0) (dictGet_mem _ _ _ hget)
        simp only at h0
        simp [hget, List.mem_append, h0, or_comm, exists_or]
  · exact h p hm

theorem availInv_foldl {α : Type} (step : CourtMap → α → CourtMap)
    (hstep : ∀ m x, AvailInv m → AvailInv (step m x)) :
    ∀ (l : List α) (m : CourtMap), AvailInv m → AvailInv (l.foldl step m) := by
  intro l
  induction l with
  | nil => intro m h; simpa using h
  | cons x rest ih => intro m h; exact ih (step m x) (hstep m x h)

theorem availInv_missing (d : SlotData) (m : CourtMap) :
    AvailInv (_process_missing_slot d m) := by
  intro p hp
  unfold _process_missing_slot at hp
  rcases List.mem_singleton.mp hp with rfl
  simp

theorem availInv_single (d : SlotData) (m : CourtMap) (h : AvailInv m) :
    AvailInv (_process_single_slot d m) := by
  unfold _process_single_slot
  dsimp only
  split
  · exact availInv_missing _ _
  · split
    · exact availInv_updateCourt _ _ _ _ _ _ h
    · exact availInv_foldl _ (fun m x hx => availInv_updateCourt _ _ _ _ _ _ hx)
        d.locations m h

theorem availInv_multi (g : List SlotData) (m : CourtMap) (h : AvailInv m) :
    AvailInv (_process_multiple_court_slots g m) := by
  unfold _process_multiple_court_slots
  exact availInv_foldl _ (fun m x hx => availInv_updateCourt _ _ _ _ _ _ hx) _ m h

/-- C1 (amended invariant): every entry of the map produced by
`get_squash_court_availability` has `available = true` iff at least one
period recorded in that entry had `remaining > 0`.  (The "contributes to
exactly one entry" half of the original claim is refuted by
the two-location fan-out; see the counterexample.) -/
theorem available_iff_some_period (slots : List SlotItem) (name : String)
    (cd : CourtData) (h : (name, cd) ∈ get_squash_court_availability slots) :
    cd.available = true ↔ ∃ s ∈ cd.slots, s.remaining > 0 := by
  have hinv : AvailInv (get_squash_court_availability slots) := by
    unfold get_squash_court_availability
    refine availInv_foldl _ ?_ _ [] (by intro p hp; simp at hp)
    intro m p hm
    cases hg : p.2 with
    | nil => exact availInv_multi _ _ hm
    | cons d rest =>
        cases rest with
        | nil => exact availInv_single _ _ hm
        | cons d2 rest2 => exact availInv_multi _ _ hm
  exact hinv (name, cd) h

/-- Witness for C1's amended invariant at a concrete aggregated map. -/
theorem available_iff_some_period_witness :
    (("Squash Court 1",
        (⟨"L1", true, 1, [⟨some "2026-02-03T10:00:00Z", some "2026-02-03T10:40:00Z", 1⟩]⟩ : CourtData)) ∈
      get_squash_court_availability [c1Item]) ∧
    ((⟨"L1", true, 1, [⟨some "2026-02-03T10:00:00Z", some "2026-02-03T10:40:00Z", 1⟩]⟩ : CourtData).available = true ↔
      ∃ s ∈ (⟨"L1", true, 1, [⟨some "2026-02-03T10:00:00Z", some "2026-02-03T10:40:00Z", 1⟩]⟩ : CourtData).slots,
        s.remaining > 0) :=
  ⟨by decide,
   available_iff_some_period [c1Item] "Squash Court 1" _ (by decide)⟩

/- ----------------- -/
/- Claim C3           -/
/- ----------------- -/

theorem multiCourtTarget_fst (d : SlotData) :
    (multiCourtTarget d).1 =
      if isAvailableCourt d then "Squash Court 2" else "Squash Court 1" := by
  unfold multiCourtTarget
  by_cases h : isAvailableCourt d
  · simp only [h, if_true]
    cases d.locations.find? (fun location => decide (location.name.getD "" = "Squash Court 2")) <;>
      rfl
  · simp only [h, if_false, Bool.false_eq_true]
    cases d.locations.find? (fun location => decide (location.name.getD "" = "Squash Court 1")) <;>
      rfl

/-- One step of folding a period into an optional existing entry, as the
multi-item loop does at the entry's key. -/
def entryStep (d : SlotData) (cur : Option CourtData) : CourtData :=
  updatedEntry (multiCourtTarget d).2 d.startDate d.endDate (d.remainingUses.getD 0) cur

theorem multi_fold_dictGet (l : List SlotData) (m : CourtMap) (k : String) :
    dictGet (l.foldl (fun ci slot_data =>
        updateCourt (multiCourtTarget slot_data).1 (multiCourtTarget slot_data).2
          slot_data.startDate slot_data.endDate (slot_data.remainingUses.getD 0) ci) m) k
      = (l.filter (fun d => decide ((multiCourtTarget d).1 = k))).foldl
          (fun cur d => some (entryStep d cur)) (dictGet m k) := by
  induction l generalizing m with
  | nil => simp
  | cons d rest ih =>
      simp only [List.foldl_cons, List.filter_cons]
      rw [ih, dictGet_updateCourt]
      by_cases hk : (multiCourtTarget d).1 = k
      · simp [hk, entryStep]
      · have hk2 : ¬k = (multiCourtTarget d).1 := fun hh => hk hh.symm
        simp [hk, hk2]

theorem entryFold_some (ds : List SlotData) (c : CourtData) :
    ds.foldl (fun cur d => some (entryStep d cur)) (some c) =
      some ⟨c.id,
        c.available || ds.any (fun d => decide (d.remainingUses.getD 0 > 0)),
        ds.foldl (fun a d => max a (d.remainingUses.getD 0)) c.remaining_uses,
        c.slots ++ ds.map (fun d => ⟨d.startDate, d.endDate, d.remainingUses.getD 0⟩)⟩ := by
  induction ds generalizing c with
  | nil => simp
  | cons d rest ih =>
      simp only [List.foldl_cons, List.any_cons, List.map_cons]
      rw [ih]
      simp [entryStep, updatedEntry, Bool.or_assoc]

/-- The closed form of the entry the multi-item loop builds at one key from
the sub-list of group items assigned to that key (in processing order): the
id comes from the first such item's inferred target, availability from any
positive remaining count, `remaining_uses` is the running maximum, and the
periods accumulate in order. -/
def courtEntryOf : List SlotData → Option CourtData
  | [] => none
  | d :: ds =>
      some ⟨(multiCourtTarget d).2,
        decide (d.remainingUses.getD 0 > 0) ||
          ds.any (fun x => decide (x.remainingUses.getD 0 > 0)),
        ds.foldl (fun a x => max a (x.remainingUses.getD 0)) (max 0 (d.remainingUses.getD 0)),
        ⟨d.startDate, d.endDate, d.remainingUses.getD 0⟩ ::
          ds.map (fun x => ⟨x.startDate, x.endDate, x.remainingUses.getD 0⟩)⟩

theorem entryFold_none (ds : List SlotData) :
    ds.foldl (fun cur d => some (entryStep d cur)) none = courtEntryOf ds := by
  cases ds with
  | nil => rfl
  | cons d rest =>
      simp only [List.foldl_cons, courtEntryOf]
      rw [show (some (entryStep d none)) =
            some (⟨(multiCourtTarget d).2, decide (d.remainingUses.getD 0 > 0),
              max 0 (d.remainingUses.getD 0),
              [⟨d.startDate, d.endDate, d.remainingUses.getD 0⟩]⟩ : CourtData) from rfl,
          entryFold_some]
      rfl

theorem target_dec_sc2 (d : SlotData) :
    decide ((multiCourtTarget d).1 = "Squash Court 2") = isAvailableCourt d := by
  rw [multiCourtTarget_fst]
  by_cases h : isAvailableCourt d <;> simp [h]

theorem target_dec_sc1 (d : SlotData) :
    decide ((multiCourtTarget d).1 = "Squash Court 1") = !isAvailableCourt d := by
  rw [multiCourtTarget_fst]
  by_cases h : isAvailableCourt d <;> simp [h]

/-- The available item of the two-item example group: `remainingUses 1`,
first-offer price 10.25, identifier "A". -/
def c3ItemAvail : SlotData :=
  ⟨some "2026-02-03T10:00:00Z", some "2026-02-03T10:40:00Z", some "041A000005",
    some 1, [⟨some ⟨41, 4, by decide, by decide⟩⟩], [], some "A"⟩

/-- The booked item of the two-item example group: `remainingUses 0`,
first-offer price 0, identifier "B". -/
def c3ItemBooked : SlotData :=
  ⟨some "2026-02-03T10:00:00Z", some "2026-02-03T10:40:00Z", some "041A000005",
    some 0, [⟨some 0⟩], [], some "B"⟩

/-- An available-signature item whose own locations contain an entry named
exactly like the inferred target, carrying its own identifier "LOC9". -/
def c3OverrideItem : SlotData :=
  ⟨some "2026-02-03T10:00:00Z", some "2026-02-03T10:40:00Z", some "041A000005",
    some 1, [⟨some ⟨41, 4, by decide, by decide⟩⟩],
    [⟨some "Squash Court 2", some "LOC9"⟩], some "A"⟩

/-- C3: `_process_multiple_court_slots` sorts the group by identifier and
assigns every item with `remainingUses > 0` and first-offer price > 0 to
"Squash Court 2" and every other item to "Squash Court 1": the entry at each
fixed name is exactly the fold of the sorted sub-list with that signature
(id from the first such item's inferred target, which prefers a matching
embedded location's identifier over the fixed constant), no other key is
ever produced, the "Squash Court 2" entry is always available, the
location-name override uses the location's own id, and the concrete
two-item example group yields exactly the two expected entries. -/
theorem multi_group_assignment (g : List SlotData) (_hg : 2 ≤ g.length) :
    (dictGet (_process_multiple_court_slots g []) "Squash Court 2" =
      courtEntryOf ((sortByKey (fun d => d.identifier.getD "") g).filter
        (fun d => isAvailableCourt d))) ∧
    (dictGet (_process_multiple_court_slots g []) "Squash Court 1" =
      courtEntryOf ((sortByKey (fun d => d.identifier.getD "") g).filter
        (fun d => !isAvailableCourt d))) ∧
    (∀ k cd, dictGet (_process_multiple_court_slots g []) k = some cd →
      k = "Squash Court 2" ∨ k = "Squash Court 1") ∧
    (∀ cd, dictGet (_process_multiple_court_slots g []) "Squash Court 2" = some cd →
      cd.available = true) ∧
    multiCourtTarget c3OverrideItem = ("Squash Court 2", "LOC9") ∧
    _process_multiple_court_slots [c3ItemAvail, c3ItemBooked] [] =
      [("Squash Court 2",
        ⟨"041ZSQU002", true, 1, [⟨some "2026-02-03T10:00:00Z", some "2026-02-03T10:40:00Z", 1⟩]⟩),
       ("Squash Court 1",
        ⟨"041ZSQU001", false, 0, [⟨some "2026-02-03T10:00:00Z", some "2026-02-03T10:40:00Z", 0⟩]⟩)] := by
  have hbase : ∀ k, dictGet (_process_multiple_court_slots g []) k =
      ((sortByKey (fun d => d.identifier.getD "") g).filter
        (fun d => decide ((multiCourtTarget d).1 = k))).foldl
        (fun cur d => some (entryStep d cur)) none := by
    intro k
    unfold _process_multiple_court_slots
    rw [multi_fold_dictGet]
    rfl
  refine ⟨?_, ?_, ?_, ?_, rfl, by decide⟩
  · rw [hbase, entryFold_none]
    congr 1
    exact List.filter_congr (fun x _ => target_dec_sc2 x)
  · rw [hbase, entryFold_none]
    congr 1
    exact List.filter_congr (fun x _ => target_dec_sc1 x)
  · intro k cd h
    by_contra hcon
    push_neg at hcon
    rw [hbase] at h
    have hnil : ((sortByKey (fun d => d.identifier.getD "") g).filter
        (fun d => decide ((multiCourtTarget d).1 = k))) = [] := by
      rw [List.filter_eq_nil_iff]
      intro x _
      rw [multiCourtTarget_fst]
      by_cases hx : isAvailableCourt x <;> simp [hx]
      · exact fun hh => hcon.1 hh.symm
      · exact fun hh => hcon.2 hh.symm
    rw [hnil] at h
    simp at h
  · intro cd h
    rw [hbase] at h
    cases hf : ((sortByKey (fun d => d.identifier.getD "") g).filter
        (fun d => decide ((multiCourtTarget d).1 = "Squash Court 2"))) with
    | nil => rw [hf] at h; simp at h
    | cons d rest =>
        rw [hf, entryFold_none] at h
        have hd : d ∈ ((sortByKey (fun d => d.identifier.getD "") g).filter
            (fun d => decide ((multiCourtTarget d).1 = "Squash Court 2"))) := by
          rw [hf]; exact List.mem_cons_self _ _
        have hpred := (List.mem_filter.mp hd).2
        rw [target_dec_sc2] at hpred
        have hrem : d.remainingUses.getD 0 > 0 := by
          unfold isAvailableCourt at hpred
          simp only [Bool.and_eq_true, decide_eq_true_eq] at hpred
          exact hpred.1
        simp only [courtEntryOf, Option.some_inj] at h
        subst h
        simp [hrem]

/-- Witness for C3 at the two-item example group: the group has length two
and its "Squash Court 2" entry is the fold of the available-signature items. -/
theorem multi_group_assignment_witness :
    2 ≤ ([c3ItemAvail, c3ItemBooked] : List SlotData).length ∧
    dictGet (_process_multiple_court_slots [c3ItemAvail, c3ItemBooked] []) "Squash Court 2" =
      courtEntryOf ((sortByKey (fun d => d.identifier.getD "") [c3ItemAvail, c3ItemBooked]).filter
        (fun d => isAvailableCourt d)) :=
  ⟨by decide, (multi_group_assignment [c3ItemAvail, c3ItemBooked] (by decide)).1⟩

/- ----------------- -/
/- Claims C5 and C6   -/
/- ----------------- -/

theorem fetch_loop_trace (feed : String → Page) :
    ∀ (fuel : Nat) (next_url : Option String) (acc : List SlotItem),
      fetch_all_slots_loop (liftFeed feed) fuel next_url acc =
        .ok (acc ++ ((fetch_page_trace feed fuel next_url).map (fun u => (feed u).items)).flatten) ∧
      (fetch_page_trace feed fuel next_url).length ≤ fuel := by
  intro fuel
  induction fuel with
  | zero =>
      intro next_url acc
      constructor
      · simp [fetch_all_slots_loop, fetch_page_trace]
      · simp [fetch_page_trace]
  | succ f ih =>
      intro next_url acc
      constructor
      · simp only [fetch_all_slots_loop, fetch_page_trace, fetch_slots, liftFeed]
        by_cases h1 : (feed (next_url.getD BASE_URL)).items = [] ∧
            (feed (next_url.getD BASE_URL)).next = some (next_url.getD BASE_URL)
        · simp [h1, h1.1]
        · simp only [h1, if_false]
          cases hn : (feed (next_url.getD BASE_URL)).next with
          | none => simp
          | some u =>
              by_cases hu : u = ""
              · simp [hu]
              · simp only [hu, if_false, List.map_cons, List.flatten]
                rw [(ih (some u) (acc ++ (feed (next_url.getD BASE_URL)).items)).1]
                simp
      · simp only [fetch_page_trace]
        by_cases h1 : (feed (next_url.getD BASE_URL)).items = [] ∧
            (feed (next_url.getD BASE_URL)).next = some (next_url.getD BASE_URL)
        · simp [h1]
        · simp only [h1, if_false]
          cases hn : (feed (next_url.getD BASE_URL)).next with
          | none => simp
          | some u =>
              by_cases hu : u = ""
              · simp [hu]
              · simpa [hu] using (ih (some u) []).2

/-- C6: for every feed, however adversarial, the pagination client requests
at most 1001 pages (the page-count ceiling breaks after `page_count > 1000`)
and returns without error exactly the requested pages' items concatenated in
arrival order; in particular a feed that never satisfies termination signal A
and always supplies a fresh non-empty `next` URL is cut off at exactly 1001
pages with a non-empty partial result. -/
theorem pagination_ceiling :
    (∀ feed : String → Page,
      (fetch_page_trace feed 1001 none).length ≤ 1001 ∧
      fetch_all_slots (liftFeed feed) =
        .ok (((fetch_page_trace feed 1001 none).map (fun u => (feed u).items)).flatten)) ∧
    (∀ item : SlotItem,
      (fetch_page_trace (fun u => ⟨[item], some (u ++ "x")⟩) 1001 none).length = 1001 ∧
      ∃ res, fetch_all_slots (liftFeed (fun u => ⟨[item], some (u ++ "x")⟩)) = .ok res ∧
        res ≠ []) := by
  have hmain : ∀ feed : String → Page,
      (fetch_page_trace feed 1001 none).length ≤ 1001 ∧
      fetch_all_slots (liftFeed feed) =
        .ok (((fetch_page_trace feed 1001 none).map (fun u => (feed u).items)).flatten) := by
    intro feed
    have h := fetch_loop_trace feed 1001 none []
    exact ⟨h.2, by simpa [fetch_all_slots] using h.1⟩
  refine ⟨hmain, ?_⟩
  intro item
  have hfull : ∀ (fuel : Nat) (next_url : Option String),
      (fetch_page_trace (fun u => ⟨[item], some (u ++ "x")⟩) fuel next_url).length = fuel := by
    intro fuel
    induction fuel with
    | zero => intro next_url; rfl
    | succ f ih =>
        intro next_url
        have hne : (next_url.getD BASE_URL) ++ "x" ≠ "" := by
          intro h
          have := congrArg String.data h
          simp [String.data_append] at this
        have hni : ¬(([item] : List SlotItem) = [] ∧
            (some ((next_url.getD BASE_URL) ++ "x") : Option String) =
              some (next_url.getD BASE_URL)) := by
          rintro ⟨h1, _⟩
          exact List.cons_ne_nil _ _ h1
        simp only [fetch_page_trace, hni, if_false, hne, List.length_cons]
        rw [ih (some ((next_url.getD BASE_URL) ++ "x"))]
  refine ⟨hfull 1001 none, ?_⟩
  refine ⟨_, (hmain _).2, ?_⟩
  have h1001 := hfull 1001 none
  cases htr : fetch_page_trace (fun u => ⟨[item], some (u ++ "x")⟩) 1001 none with
  | nil => rw [htr] at h1001; simp at h1001
  | cons u rest =>
      simp only [List.map_cons, List.flatten]
      intro hcontra
      have := congrArg List.length hcontra
      simp at this

theorem rpde_chain_loop (feed : String → Page) :
    ∀ (us : List String) (t : String) (cur : Option String) (acc : List SlotItem) (fuel : Nat),
      us.length + 1 ≤ fuel → cur.getD BASE_URL = us.headD t →
      feedChain feed us t = true →
      fetch_all_slots_loop (liftFeed feed) fuel cur acc =
        .ok (acc ++ (us.map (fun u => (feed u).items)).flatten) := by
  intro us
  induction us with
  | nil =>
      intro t cur acc fuel hf hcur hch
      obtain ⟨f, rfl⟩ : ∃ f, fuel = f + 1 := ⟨fuel - 1, by omega⟩
      unfold feedChain at hch
      simp only [Bool.and_eq_true, decide_eq_true_eq] at hch
      simp only [fetch_all_slots_loop, fetch_slots, liftFeed]
      rw [show cur.getD BASE_URL = t from hcur]
      simp [hch.1, hch.2]
  | cons u rest ih =>
      intro t cur acc fuel hf hcur hch
      obtain ⟨f, rfl⟩ : ∃ f, fuel = f + 1 := ⟨fuel - 1, by omega⟩
      unfold feedChain at hch
      simp only [Bool.and_eq_true, Bool.not_eq_true', Bool.and_eq_false_iff,
        decide_eq_true_eq, decide_eq_false_iff_not] at hch
      obtain ⟨⟨⟨hnext, hb⟩, hnoterm⟩, hrest⟩ := hch
      have hcur' : cur.getD BASE_URL = u := by simpa using hcur
      simp only [fetch_all_slots_loop, fetch_slots, liftFeed]
      rw [hcur']
      have hcond : ¬((feed u).items = [] ∧ (feed u).next = some u) := by
        rintro ⟨h1, h2⟩
        rw [hnext] at h2
        injection h2 with h2
        rcases hnoterm with h | h
        · exact h h1
        · exact h h2
      rw [if_neg hcond]
      simp only [hnext]
      rw [if_neg hb]
      rw [ih t (some (rest.headD t)) (acc ++ (feed u).items) f (by simpa using hf)
        (by simp) hrest]
      simp

/-- C5: for a feed forming a chain of non-terminal pages (each `next`
pointing at the following page's URL, non-empty and not forming the RPDE
terminal pattern) that ends in a terminal page (empty `items`, `next` equal
to its own URL), starting at the base URL and fitting inside the 1001-page
ceiling, `fetch_all_slots` stops at the terminal page and returns exactly
the concatenation of the non-terminal pages' items in arrival order with no
deduplication.  (The embedding checks the empty-items-and-same-next terminal
condition before the falsy-`next` fallback, in source order.) -/
theorem rpde_chain_concatenation (feed : String → Page) (us : List String) (t : String)
    (hlen : us.length + 1 ≤ 1001) (hhead : us.headD t = BASE_URL)
    (hchain : feedChain feed us t = true) :
    fetch_all_slots (liftFeed feed) = .ok ((us.map (fun u => (feed u).items)).flatten) := by
  have h := rpde_chain_loop feed us t none [] 1001 hlen (by simpa using hhead.symm) hchain
  simpa [fetch_all_slots] using h

/-- A two-page feed: the base page carries one item and points at the
terminal page, which reports no items and points at itself. -/
def c5Feed : String → Page :=
  fun u => if u = BASE_URL then ⟨[⟨none⟩], some "page2"⟩ else ⟨[], some "page2"⟩

/-- Witness for C5 at the two-page feed. -/
theorem rpde_chain_concatenation_witness :
    ([BASE_URL] : List String).length + 1 ≤ 1001 ∧
    ([BASE_URL].headD "page2") = BASE_URL ∧
    feedChain c5Feed [BASE_URL] "page2" = true ∧
    fetch_all_slots (liftFeed c5Feed) =
      .ok ((([BASE_URL] : List String).map (fun u => (c5Feed u).items)).flatten) :=
  ⟨by decide, rfl, by decide,
    rpde_chain_concatenation c5Feed [BASE_URL] "page2" (by decide) rfl (by decide)⟩

/- ----------------- -/
/- Claim C4           -/
/- ----------------- -/

/-- Counterexample to C4 as stated: with a transport layer failing on the
first page request, the caller of `check_availability_programmatic` does not
receive any report (let alone one with `success=false`): `fetch_slots` calls
`sys.exit(1)`, whose `SystemExit` is not caught by `except Exception`, so the
process terminates with status 1. -/
theorem transport_failure_exits_process :
    check_availability_programmatic (fun _ => none) "2026-02-03" "10:00" =
      .exits 1 := rfl

/-- C4 (amended): a failing page request terminates the whole run with
process exit status 1 before any report is produced, while every ordinary
exception reaching the outer `try` is converted into the failure-shaped
report: `success=false`, a message embedding the failure description, the
generic non-parameterized booking URL, and no other fields. -/
theorem error_boundary (feed : String → Option Page) (date time : String) :
    (∀ (v : Nat) (c : Int), parseHM time = some v →
      fetch_all_slots feed = .error (.systemExit c) →
      check_availability_programmatic feed date time = .exits c) ∧
    (∀ msg : String, progBody feed date time = .error (.exc msg) →
      check_availability_programmatic feed date time =
        .returns ⟨false, "Error checking availability: " ++ msg, genericBookingUrl,
          none, none, none, none, none, some msg⟩) := by
  constructor
  · intro v c hv hfetch
    unfold check_availability_programmatic progBody check_squash_availability
    rw [hv]
    simp [hfetch]
  · intro msg h
    unfold check_availability_programmatic
    rw [h]

/-- Witness for C4: the always-failing feed exits with status 1, and an
unparseable start time produces the failure-shaped report. -/
theorem error_boundary_witness :
    (parseHM "10:00" = some 600 ∧
      fetch_all_slots (fun _ => none) = .error (.systemExit 1) ∧
      check_availability_programmatic (fun _ => none) "2026-02-03" "10:00" = .exits 1) ∧
    (progBody (fun _ => none) "2026-02-03" "xx" =
        .error (.exc "time data does not match format") ∧
      check_availability_programmatic (fun _ => none) "2026-02-03" "xx" =
        .returns ⟨false, "Error checking availability: time data does not match format",
          genericBookingUrl, none, none, none, none, none,
          some "time data does not match format"⟩) :=
  ⟨⟨rfl, rfl,
    (error_boundary (fun _ => none) "2026-02-03" "10:00").1 600 1 rfl rfl⟩,
   ⟨rfl,
    (error_boundary (fun _ => none) "2026-02-03" "xx").2
      "time data does not match format" rfl⟩⟩

/- ----------------- -/
/- Claim C8           -/
/- ----------------- -/

/-- C8: when resolution succeeds, the main window is
`[startTime, startTime + 40min)` and the before window
`[startTime - 40min, startTime)` (as clock strings), and the report's
message and success flag are templated on the count of available resources
in the before window: zero gives the negative message with `success=false`,
one gives exactly "There is one slot free before your booking" with
`success=true`, and two or more give the plural message embedding the count
with `success=true`. -/
theorem report_windows_and_message (feed : String → Option Page)
    (date time : String) (v : Nat) (mi bi : CourtMap) (ms me bs be : String)
    (hv : parseHM time = some v)
    (hc : check_squash_availability feed date time = .ok (mi, bi, ms, me, bs, be)) :
    ms = time ∧ me = formatHM ((v + 40) % 1440) ∧
    bs = formatHM ((v + 1400) % 1440) ∧ be = time ∧
    ∃ r : Report, check_availability_programmatic feed date time = .returns r ∧
      r.time_slots = some ⟨time, formatHM ((v + 40) % 1440),
        formatHM ((v + 1400) % 1440), time⟩ ∧
      r.before_slot_available = some (countAvailable bi) ∧
      (countAvailable bi = 0 →
        r.message = "There is no slots free before your booking" ∧ r.success = false) ∧
      (countAvailable bi = 1 →
        r.message = "There is one slot free before your booking" ∧ r.success = true) ∧
      (2 ≤ countAvailable bi →
        r.message = "There are " ++ Nat.repr (countAvailable bi) ++
          " slots free before your booking" ∧ r.success = true) := by
  unfold check_squash_availability at hc
  simp only [hv] at hc
  cases hfetch : fetch_all_slots feed with
  | error e => simp only [hfetch] at hc; exact Except.noConfusion hc
  | ok all_slots =>
      simp only [hfetch] at hc
      cases hf1 : filter_squash_slots_by_time all_slots date time
          (formatHM ((v + 40) % 1440)) with
      | error e => simp only [hf1] at hc; exact Except.noConfusion hc
      | ok main_slots =>
          simp only [hf1] at hc
          cases hf2 : filter_squash_slots_by_time all_slots date
              (formatHM ((v + 1400) % 1440)) time with
          | error e => simp only [hf2] at hc; exact Except.noConfusion hc
          | ok before_slots =>
              simp only [hf2, Except.ok.injEq, Prod.mk.injEq] at hc
              obtain ⟨hmi, hbi, hms, hme, hbs, hbe⟩ := hc
              have hdate : ∃ D, parseDateStrptime date = some D := by
                unfold filter_squash_slots_by_time parse_datetime at hf1
                cases hD : parseDateStrptime date with
                | none => rw [hD] at hf1; simp at hf1
                | some D => exact ⟨D, rfl⟩
              obtain ⟨D, hD⟩ := hdate
              have hbsparse : parseHM (formatHM ((v + 1400) % 1440)) =
                  some ((v + 1400) % 1440) :=
                parseHM_formatHM _ (Nat.mod_lt _ (by norm_num))
              refine ⟨hms.symm, hme.symm, hbs.symm, hbe.symm, ?_⟩
              unfold check_availability_programmatic progBody check_squash_availability
              rw [hv]
              simp only [hfetch, hf1, hf2]
              unfold buildBookingUrl
              rw [hD, hbsparse]
              rw [hbi]
              refine ⟨_, rfl, rfl, rfl, ?_, ?_, ?_⟩
              · intro h0
                unfold availabilityMessage
                simp [h0]
              · intro h1
                unfold availabilityMessage
                simp [h1]
              · intro h2
                unfold availabilityMessage
                have hpos : countAvailable bi > 0 := by omega
                have hne : ¬countAvailable bi = 1 := by omega
                simp [hpos, hne]

/-- A squash item occupying exactly the before window of a 10:00 query. -/
def c8Item : SlotItem :=
  ⟨some ⟨some "2026-02-03T09:20:00Z", some "2026-02-03T10:00:00Z",
    some "041A000005", some 1, [], [], none⟩⟩

/-- A two-page feed whose single item sits in the before window. -/
def c8Feed : String → Option Page :=
  fun u => if u = BASE_URL then some ⟨[c8Item], some "u2"⟩ else some ⟨[], some "u2"⟩

/-- The before-window availability map the pipeline produces for `c8Feed`. -/
def c8Bi : CourtMap :=
  [("Squash Court (Unknown)",
    ⟨"Unknown", true, 1, [⟨some "2026-02-03T09:20:00Z", some "2026-02-03T10:00:00Z", 1⟩]⟩)]

/-- Witness for C8: the 10:00 query resolves the windows
`[10:00,10:40)` / `[09:20,10:00)`, the before window holds exactly one
available resource, and the report carries the exact singular message with
`success = true`. -/
theorem report_windows_and_message_witness :
    parseHM "10:00" = some 600 ∧
    check_squash_availability c8Feed "2026-02-03" "10:00" =
      .ok ([], c8Bi, "10:00", "10:40", "09:20", "10:00") ∧
    countAvailable c8Bi = 1 ∧
    (∃ r : Report, check_availability_programmatic c8Feed "2026-02-03" "10:00" = .returns r ∧
      r.message = "There is one slot free before your booking" ∧ r.success = true) := by
  have hc : check_squash_availability c8Feed "2026-02-03" "10:00" =
      .ok ([], c8Bi, "10:00", "10:40", "09:20", "10:00") := rfl
  refine ⟨rfl, hc, rfl, ?_⟩
  have h := report_windows_and_message c8Feed "2026-02-03" "10:00" 600 [] c8Bi
    "10:00" "10:40" "09:20" "10:00" rfl hc
  obtain ⟨_, _, _, _, r, hret, _, _, _, h1, _⟩ := h
  exact ⟨r, hret, (h1 rfl).1, (h1 rfl).2⟩

/- ----------------- -/
/- Claim C10          -/
/- ----------------- -/

/-- All items of the list whose timestamps parse carry the same `utcoffset`
`o` on both timestamps and describe periods of at most 84000 seconds
(23 hours 20 minutes). -/
def UniformSlots (o : Option Int) (slots : List SlotItem) : Prop :=
  ∀ item ∈ slots, ∀ (sd : SlotData) (sds eds : String) (ss se : PyDateTime),
    item.data = some sd → sd.startDate = some sds → sd.endDate = some eds →
    fromisoformat (pyReplace sds 'Z' "+00:00") = some ss →
    fromisoformat (pyReplace eds 'Z' "+00:00") = some se →
    ss.tz = o ∧ se.tz = o ∧ se.naive - ss.naive ≤ 84000

theorem filterStep_uniform (o : Option Int) (sd : SlotData) (t1 t2 : PyDateTime)
    (hsd : ∀ (sds eds : String) (ss se : PyDateTime),
      sd.startDate = some sds → sd.endDate = some eds →
      fromisoformat (pyReplace sds 'Z' "+00:00") = some ss →
      fromisoformat (pyReplace eds 'Z' "+00:00") = some se →
      ss.tz = o ∧ se.tz = o ∧ se.naive - ss.naive ≤ 84000)
    (h1 : t1.tz = none ∨ t1.tz = o) (h2 : t2.tz = none ∨ t2.tz = o) :
    ∃ keep t1' t2', filterStep sd t1 t2 = .ok (keep, t1', t2') ∧
      t1'.naive = t1.naive ∧ t2'.naive = t2.naive ∧
      (t1'.tz = none ∨ t1'.tz = o) ∧ (t2'.tz = none ∨ t2'.tz = o) ∧
      (t1.naive - t2.naive = 84000 → keep = false) := by
  unfold filterStep
  cases hsds : sd.startDate with
  | none => exact ⟨false, t1, t2, rfl, rfl, rfl, h1, h2, fun _ => rfl⟩
  | some sds =>
  dsimp only
  cases heds : sd.endDate with
  | none => exact ⟨false, t1, t2, rfl, rfl, rfl, h1, h2, fun _ => rfl⟩
  | some eds =>
  dsimp only
  cases hss : fromisoformat (pyReplace sds 'Z' "+00:00") with
  | none =>
      cases hse : fromisoformat (pyReplace eds 'Z' "+00:00") <;>
        exact ⟨false, t1, t2, rfl, rfl, rfl, h1, h2, fun _ => rfl⟩
  | some ss_ =>
  cases hse : fromisoformat (pyReplace eds 'Z' "+00:00") with
  | none => exact ⟨false, t1, t2, rfl, rfl, rfl, h1, h2, fun _ => rfl⟩
  | some se_ =>
  obtain ⟨hsstz, hsetz, hdur⟩ := hsd sds eds ss_ se_ hsds heds hss hse
  dsimp only
  set t1' := if t1.tz = none then { t1 with tz := ss_.tz } else t1 with ht1'
  set t2' := if t2.tz = none then { t2 with tz := se_.tz } else t2 with ht2'
  have h1tz : t1'.tz = o := by
    by_cases hn : t1.tz = none
    · rw [ht1', if_pos hn]; exact hsstz
    · rw [ht1', if_neg hn]
      rcases h1 with h | h
      · exact absurd h hn
      · exact h
  have h2tz : t2'.tz = o := by
    by_cases hn : t2.tz = none
    · rw [ht2', if_pos hn]; exact hsetz
    · rw [ht2', if_neg hn]
      rcases h2 with h | h
      · exact absurd h hn
      · exact h
  have h1n : t1'.naive = t1.naive := by
    by_cases hn : t1.tz = none
    · rw [ht1', if_pos hn]
    · rw [ht1', if_neg hn]
  have h2n : t2'.naive = t2.naive := by
    by_cases hn : t2.tz = none
    · rw [ht2', if_pos hn]
    · rw [ht2', if_neg hn]
  have hov : time_overlaps ss_ se_ t1' t2' =
      .ok (decide (ss_.naive < t2'.naive) && decide (t1'.naive < se_.naive)) :=
    time_overlaps_uniform _ _ _ _ (by rw [hsstz, h2tz]) (by rw [h1tz, hsetz])
  by_cases hdate : dateOf ss_ = dateOf t1'
  · refine ⟨decide (ss_.naive < t2'.naive) && decide (t1'.naive < se_.naive),
      t1', t2', by rw [if_pos hdate, hov], h1n, h2n, Or.inr h1tz, Or.inr h2tz, ?_⟩
    intro h84
    rw [h1n, h2n]
    by_cases hA : ss_.naive < t2.naive
    · have hB : ¬t1.naive < se_.naive := by omega
      simp [hB]
    · simp [hA]
  · exact ⟨false, t1', t2', by rw [if_neg hdate], h1n, h2n,
      Or.inr h1tz, Or.inr h2tz, fun _ => rfl⟩

theorem filterLoop_uniform (o : Option Int) :
    ∀ (slots acc : List SlotItem) (t1 t2 : PyDateTime),
      UniformSlots o slots →
      (t1.tz = none ∨ t1.tz = o) → (t2.tz = none ∨ t2.tz = o) →
      (∃ res, filterLoop slots acc t1 t2 = .ok res) ∧
      (t1.naive - t2.naive = 84000 → filterLoop slots acc t1 t2 = .ok acc) := by
  intro slots
  induction slots with
  | nil => intro acc t1 t2 _ _ _; exact ⟨⟨acc, rfl⟩, fun _ => rfl⟩
  | cons item rest ih =>
      intro acc t1 t2 hU h1 h2
      have hUrest : UniformSlots o rest := fun x hx => hU x (List.mem_cons_of_mem _ hx)
      cases hd : item.data with
      | none => simpa [filterLoop, hd] using ih acc t1 t2 hUrest h1 h2
      | some sd =>
          by_cases hcls : filterClassTest (sd.facilityUse.getD "") = true
          · have hsd : ∀ (sds eds : String) (ss se : PyDateTime),
                sd.startDate = some sds → sd.endDate = some eds →
                fromisoformat (pyReplace sds 'Z' "+00:00") = some ss →
                fromisoformat (pyReplace eds 'Z' "+00:00") = some se →
                ss.tz = o ∧ se.tz = o ∧ se.naive - ss.naive ≤ 84000 :=
              fun sds eds ss se hsds heds hss hse =>
                hU item (List.mem_cons_self _ _) sd sds eds ss se hd hsds heds hss hse
            obtain ⟨keep, t1', t2', hstep, hn1, hn2, htz1, htz2, hkeep⟩ :=
              filterStep_uniform o sd t1 t2 hsd h1 h2
            constructor
            · obtain ⟨⟨res, hres⟩, _⟩ :=
                ih (if keep then acc ++ [item] else acc) t1' t2' hUrest htz1 htz2
              exact ⟨res, by simp [filterLoop, hd, hcls, hstep, hres]⟩
            · intro h84
              have hk := hkeep h84
              subst hk
              have h84' : t1'.naive - t2'.naive = 84000 := by rw [hn1, hn2]; exact h84
              have hrec := (ih acc t1' t2' hUrest htz1 htz2).2 h84'
              simp [filterLoop, hd, hcls, hstep, hrec]
          · have hcls' : filterClassTest (sd.facilityUse.getD "") = false :=
              Bool.not_eq_true _ ▸ (by simpa using hcls)
            simpa [filterLoop, hd, hcls'] using ih acc t1 t2 hUrest h1 h2

/-- C10: for a start time strictly before 00:40 the before window's bounds
are clock times on the same target date with the start later in the day than
the end (`[start-40min wrapped, start)`), so against any feed of uniformly
offset items whose periods last at most 23h20m the half-open overlap test
never holds: the before-window map is empty, the before count is 0, and the
report carries the negative message with `success = false` regardless of the
feed's content. -/
theorem early_morning_before_window_empty (feed : String → Option Page)
    (date time : String) (v : Nat) (D : Int) (o : Option Int) (slots : List SlotItem)
    (hv : parseHM time = some v) (hv40 : v < 40)
    (hD : parseDateStrptime date = some D)
    (hfetch : fetch_all_slots feed = .ok slots)
    (hU : UniformSlots o slots) :
    (∃ mi, check_squash_availability feed date time =
      .ok (mi, [], time, formatHM ((v + 40) % 1440), formatHM (v + 1400), time)) ∧
    (∃ r : Report, check_availability_programmatic feed date time = .returns r ∧
      r.message = "There is no slots free before your booking" ∧
      r.success = false ∧ r.before_slot_available = some 0) := by
  have hmod : (v + 1400) % 1440 = v + 1400 := Nat.mod_eq_of_lt (by omega)
  have hbsparse : parseHM (formatHM (v + 1400)) = some (v + 1400) :=
    parseHM_formatHM _ (by omega)
  have hmeparse : parseHM (formatHM ((v + 40) % 1440)) = some ((v + 40) % 1440) :=
    parseHM_formatHM _ (Nat.mod_lt _ (by norm_num))
  obtain ⟨⟨mains, hmains⟩, _⟩ :=
    filterLoop_uniform o slots [] ⟨D * 86400 + (v : Int) * 60, none⟩
      ⟨D * 86400 + (((v + 40) % 1440 : Nat) : Int) * 60, none⟩ hU (Or.inl rfl) (Or.inl rfl)
  have hbefore :=
    (filterLoop_uniform o slots [] ⟨D * 86400 + ((v + 1400 : Nat) : Int) * 60, none⟩
      ⟨D * 86400 + (v : Int) * 60, none⟩ hU (Or.inl rfl) (Or.inl rfl)).2
      (by push_cast; ring_nf)
  have hfilt_main : filter_squash_slots_by_time slots date time
      (formatHM ((v + 40) % 1440)) = .ok mains := by
    unfold filter_squash_slots_by_time parse_datetime
    simp only [hD, hv, hmeparse]
    exact hmains
  have hfilt_before : filter_squash_slots_by_time slots date
      (formatHM (v + 1400)) time = .ok [] := by
    unfold filter_squash_slots_by_time parse_datetime
    simp only [hD, hv, hbsparse]
    exact hbefore
  constructor
  · refine ⟨get_squash_court_availability mains, ?_⟩
    unfold check_squash_availability
    simp only [hv, hfetch, hmod, hfilt_main, hfilt_before]
    rfl
  · have hprog : check_availability_programmatic feed date time =
        .returns { success := false,
                   message := "There is no slots free before your booking",
                   booking_url := genericBookingUrl ++ "?activityDate=" ++
                     strftimeIsoMillisZ (D * 86400 + ((v + 1400 : Nat) : Int) * 60) ++
                     "&previousActivityDate=" ++
                     strftimeIsoMillisZ (D * 86400 + ((v + 1400 : Nat) : Int) * 60 - 40 * 60),
                   main_slot_available :=
                     some (countAvailable (get_squash_court_availability mains)),
                   before_slot_available := some 0,
                   main_court_info := some (get_squash_court_availability mains),
                   before_court_info := some (get_squash_court_availability []),
                   time_slots := some ⟨time, formatHM ((v + 40) % 1440),
                     formatHM (v + 1400), time⟩,
                   error := none } := by
      unfold check_availability_programmatic progBody check_squash_availability buildBookingUrl
      simp only [hv, hfetch, hmod, hfilt_main, hfilt_before, hD, hbsparse]
      rfl
    exact ⟨_, hprog, rfl, rfl, rfl⟩

/-- A one-period squash item (09:20Z to 10:00Z, 40 minutes long). -/
def c10Item : SlotItem :=
  ⟨some ⟨some "2026-02-03T09:20:00Z", some "2026-02-03T10:00:00Z",
    some "041A000005", some 1, [], [], none⟩⟩

/-- A two-page feed carrying only `c10Item`. -/
def c10Feed : String → Option Page :=
  fun u => if u = BASE_URL then some ⟨[c10Item], some "u2"⟩ else some ⟨[], some "u2"⟩

/-- Witness for C10 at the query `(2026-02-03, "00:20")`: the before window
resolves to `[23:40, 00:20)` on the same date, the before map is empty, and
the report is the negative one even though the feed holds an available slot. -/
theorem early_morning_before_window_empty_witness :
    parseHM "00:20" = some 20 ∧ 20 < 40 ∧
    parseDateStrptime "2026-02-03" = some 20487 ∧
    fetch_all_slots c10Feed = .ok [c10Item] ∧
    UniformSlots (some 0) [c10Item] ∧
    formatHM (20 + 1400) = "23:40" ∧
    ((∃ mi, check_squash_availability c10Feed "2026-02-03" "00:20" =
        .ok (mi, [], "00:20", formatHM ((20 + 40) % 1440), formatHM (20 + 1400), "00:20")) ∧
      (∃ r : Report, check_availability_programmatic c10Feed "2026-02-03" "00:20" = .returns r ∧
        r.message = "There is no slots free before your booking" ∧
        r.success = false ∧ r.before_slot_available = some 0)) := by
  have hU : UniformSlots (some 0) [c10Item] := by
    intro item hitem sd sds eds ss se hd hsds heds hss hse
    have hi : item = c10Item := List.mem_singleton.mp hitem
    subst hi
    have hsd : sd = ⟨some "2026-02-03T09:20:00Z", some "2026-02-03T10:00:00Z",
        some "041A000005", some 1, [], [], none⟩ := by
      have : c10Item.data = some (⟨some "2026-02-03T09:20:00Z", some "2026-02-03T10:00:00Z",
        some "041A000005", some 1, [], [], none⟩ : SlotData) := rfl
      rw [this] at hd
      injection hd with hd
      exact hd.symm
    subst hsd
    simp only at hsds heds
    injection hsds with hsds
    injection heds with heds
    subst hsds
    subst heds
    have hss0 : fromisoformat (pyReplace "2026-02-03T09:20:00Z" 'Z' "+00:00") =
        some (⟨1770110400, some 0⟩ : PyDateTime) := rfl
    have hse0 : fromisoformat (pyReplace "2026-02-03T10:00:00Z" 'Z' "+00:00") =
        some (⟨1770112800, some 0⟩ : PyDateTime) := rfl
    rw [hss0] at hss
    rw [hse0] at hse
    injection hss with hss
    injection hse with hse
    subst hss
    subst hse
    exact ⟨rfl, rfl, by decide⟩
  exact ⟨rfl, by decide, rfl, rfl, hU, rfl,
    early_morning_before_window_empty c10Feed "2026-02-03" "00:20" 20 20487 (some 0)
      [c10Item] rfl (by decide) rfl rfl hU⟩
